import Mathlib

/-!
Verification of the resilient fetch-and-assemble engine of the tally
repository (`voting_matrix.py`), against its natural-language
specification.

The development shallowly embeds the data model and the operations of
`FastDAOFetcher` / `OptimizedTallyAPI`:

* vote records and `normalize_vote_type` (lines 815-872);
* the checkpoint dictionary, `load_checkpoint` (227-243) and
  `save_checkpoint` (245-265);
* the delegate pagination loop `get_all_delegates_optimized` (332-485)
  as a step function over a cursor-indexed page-fetch function, with
  fuel-bounded iteration;
* the proposal pagination loop `get_all_proposals_optimized` (500-635)
  over a scripted response sequence, with Python attribute errors made
  explicit in an `Except`;
* the voting-matrix assembly `create_voting_matrix_fast` (890-991) and
  `process_all_delegates_for_proposal` (993-1066).

Machine-level conventions: Python `None`-able strings are `Option
String`; absent-or-empty strings whose distinction the code never
exploits are plain `String` with `""` for absence; Python truthiness of
an optional string is `optStrTruthy`; the string-encoded signed vote
amounts of the data model are parsed as signed integers, with a parse
failure defaulting to `0` exactly as the code's `try/except` does.
`json.load` and the HTTP client are external collaborators and appear
as function parameters.
-/

/-- Python truthiness of an optional string: `None` and `""` are falsy. -/
def optStrTruthy (o : Option String) : Bool :=
  o.getD "" ≠ ""

/-- ASCII whitespace recognizer used to model Python `str.strip()`. -/
def isSpaceChar (c : Char) : Bool :=
  c == ' ' || c == '\t' || c == '\n' || c == '\r'

/-- Drops leading ASCII whitespace from a character list. -/
def dropSpaces : List Char → List Char
  | [] => []
  | c :: cs => if isSpaceChar c then dropSpaces cs else c :: cs

/-- Python `str.strip()` on the ASCII whitespace the payloads contain;
implemented on the character list so the kernel can evaluate it. -/
def pyStrip (s : String) : String :=
  ⟨((dropSpaces s.data).reverse |> dropSpaces).reverse⟩

/-- ASCII lower-casing of a character, modelling Python `str.lower()`
on the ASCII identifiers and type strings the service returns. -/
def lowerChar (c : Char) : Char :=
  if 'A' ≤ c ∧ c ≤ 'Z' then Char.ofNat (c.toNat + 32) else c

/-- Python `str.lower()`, kernel-evaluable. -/
def pyLower (s : String) : String :=
  ⟨s.data.map lowerChar⟩

/-- Python `s[:n]`, kernel-evaluable. -/
def pyTake (s : String) (n : Nat) : String :=
  ⟨s.data.take n⟩

/-- Decimal value of a character list; `none` unless non-empty and all
digits. -/
def charsToNatAux : Option Nat → List Char → Option Nat
  | acc, [] => acc
  | acc, c :: cs =>
    charsToNatAux
      (acc.bind (fun n => if c.isDigit then some (n * 10 + (c.toNat - 48)) else none)) cs

/-- Decimal value of a non-empty all-digit character list. -/
def charsToNat? : List Char → Option Nat
  | [] => none
  | c :: cs => charsToNatAux (some 0) (c :: cs)

/-- Decides whether the character list `hay` starts with the pattern `p`. -/
def charsStartWith : List Char → List Char → Bool
  | [], _ => true
  | _ :: _, [] => false
  | p :: ps, c :: cs => p == c && charsStartWith ps cs

/-- Decides whether the pattern occurs as a contiguous run of `hay`
(Python's `pat in hay` on strings). -/
def charsContain (pat : List Char) : List Char → Bool
  | [] => charsStartWith pat []
  | c :: rest => charsStartWith pat (c :: rest) || charsContain pat rest

/-- Python `word in reason` substring containment on strings. -/
def strContainsWord (reason word : String) : Bool :=
  charsContain word.data reason.data

/-- Python `any(word in reason for word in words)`. -/
def containsAny (reason : String) (words : List String) : Bool :=
  words.any (fun w => strContainsWord reason w)

/-- Parses an optionally signed decimal integer, as Python `float(...)`
does on the string-encoded integer amounts of the data model; `none` on
a malformed string. -/
def parseAmount? (s : String) : Option Int :=
  match s.data with
  | '-' :: rest => (charsToNat? rest).map (fun n => -(n : Int))
  | '+' :: rest => (charsToNat? rest).map (fun n => (n : Int))
  | cs => (charsToNat? cs).map (fun n => (n : Int))

/-- The numeric value the normalizer derives from a raw amount string:
`amount = float(amount) if amount else 0` under `try/except` with the
`except` branch yielding `0` (voting_matrix.py lines 849-853). -/
def amountValue (s : String) : Int :=
  if s = "" then 0 else (parseAmount? s).getD 0

/-- Voter sub-record of a vote (`voter { address name ens }`). -/
structure Voter where
  address : String := ""
  name : String := ""
  ens : String := ""
deriving DecidableEq, Repr

/-- Block sub-record of a vote (`block { timestamp number }`); the
fields are `Option` since `safe_get_nested` distinguishes absent/null
from present values. -/
structure BlockInfo where
  timestamp : Option String := none
  number : Option String := none
deriving DecidableEq, Repr

/-- A raw vote record as handled by `normalize_vote_type` and the vote
map of the matrix builder. Python-absent string fields that the code
only ever reads with a `''` default are plain `String`. -/
structure Vote where
  id : String := ""
  type : String := ""
  amount : String := ""
  reason : String := ""
  voter : Option Voter := none
  block : Option BlockInfo := none
  txHash : String := ""
  createdAt : Option String := none
deriving DecidableEq, Repr

/-- The fixed synonym table of `normalize_vote_type`
(voting_matrix.py lines 821-843). -/
def type_mappings : List (String × String) :=
  [("for", "For"), ("yes", "For"), ("support", "For"), ("approve", "For"),
   ("in_favor", "For"), ("infavor", "For"), ("aye", "For"), ("1", "For"),
   ("true", "For"),
   ("against", "Against"), ("no", "Against"), ("oppose", "Against"),
   ("nay", "Against"), ("0", "Against"), ("false", "Against"),
   ("abstain", "Abstain"), ("abstention", "Abstain"), ("present", "Abstain"),
   ("2", "Abstain")]

/-- Lookup in the synonym table (Python `type_normalized in type_mappings`
followed by indexing). -/
def lookupTypeMapping (t : String) : Option String :=
  (type_mappings.find? (fun kv => kv.1 = t)).map (fun kv => kv.2)

/-- Rule 1 of the normalizer: the synonym-table match of the stripped,
lower-cased raw type string; skipped entirely when the stripped string
is empty (voting_matrix.py lines 817-846). -/
def typeTableMatch (vt : String) : Option String :=
  if vt ≠ "" then lookupTypeMapping (pyLower vt) else none

/-- Embedding of `FastDAOFetcher.normalize_vote_type` (voting_matrix.py lines
815-872): synonym table, then positive amount, then reason keyword
scan, then transaction-hash evidence, then `Unknown`. -/
def normalize_vote_type (v : Vote) : String :=
  match typeTableMatch (pyStrip v.type) with
  | some m => m
  | none =>
    if amountValue v.amount > 0 then "For"
    else
      let reason := pyLower v.reason
      if reason ≠ "" && containsAny reason ["support", "favor", "yes", "approve", "agree", "for"] then "For"
      else if reason ≠ "" && containsAny reason ["against", "oppose", "no", "disagree", "reject"] then "Against"
      else if reason ≠ "" && containsAny reason ["abstain", "neutral", "present"] then "Abstain"
      else if v.txHash ≠ "" then "Voted"
      else "Unknown"

/-- Account sub-record of a delegate
(`account { address name bio picture twitter ens }`; the model keeps
the fields the fetch-and-assemble core reads). -/
structure Account where
  address : String := ""
  name : String := ""
  ens : String := ""
deriving DecidableEq, Repr

/-- Statement sub-record of a delegate
(`statement { statement statementSummary isSeekingDelegation }`). -/
structure DStatement where
  statement : String := ""
  isSeekingDelegation : Bool := false
deriving DecidableEq, Repr

/-- A delegate record. `votesCount` and `delegatorsCount` are the
numeric values after `validate_delegate_data`'s coercions; the claims
under verification never depend on their floating-point nature, so they
are kept as naturals. -/
structure Delegate where
  account : Account
  votesCount : Nat := 0
  delegatorsCount : Nat := 0
  statement : DStatement := {}
deriving DecidableEq, Repr

/-- Lower-cased account address, the stable identity key of a delegate. -/
def lowerAddr (d : Delegate) : String :=
  pyLower d.account.address

/-- Embedding of `FastDAOFetcher.validate_delegate_data` (voting_matrix.py lines
487-498): a delegate is kept when its account address is truthy; the
numeric coercions always succeed in this model because the counts are
already numerals. -/
def validate_delegate_data (d : Delegate) : Bool :=
  d.account.address ≠ ""

/-- A raw proposal node as returned by the proposals query. `Option`
fields model JSON keys that can be absent or null and that the code
reads through `dict.get` / `safe_get_nested`. The `voteStats` block is
omitted: it only feeds the expected-total diagnostic of vote fetching,
which this embedding receives as an explicit argument. -/
structure PMetadata where
  title : Option String := none
  description : Option String := none
deriving DecidableEq, Repr

/-- Raw proposal node (see `PMetadata`). -/
structure PropNode where
  id : String := ""
  onchainId : Option String := none
  metadata : Option PMetadata := none
  status : Option String := none
  proposerAddress : Option String := none
  startTimestamp : Option String := none
  endTimestamp : Option String := none
  startBlock : Option String := none
  endBlock : Option String := none
deriving DecidableEq, Repr

/-- The checkpoint dictionary persisted by `FastDAOFetcher`. The five
default keys are exactly those of `load_checkpoint` (lines 237-243);
`delegates_complete` is `none` while the key is absent (no code path
ever sets it to `True`). -/
structure Checkpoint where
  delegates : List Delegate := []
  proposals : List PropNode := []
  last_delegate_cursor : Option String := none
  delegates_complete : Option Bool := none
  votes_cache : List (String × List Vote) := []
  processed_proposals : List Nat := []
deriving DecidableEq, Repr

/-- The default empty checkpoint state returned by `load_checkpoint`
when the file is missing or unreadable (lines 237-243). -/
def defaultCheckpoint : Checkpoint := {}

/-- Embedding of `FastDAOFetcher.load_checkpoint` (voting_matrix.py lines 227-243).
The file content is `none` when `os.path.exists` fails; `json.load`
and the subsequent dict construction are the external `parse` argument,
whose failure is the exception swallowed by the bare `except: pass`. -/
def load_checkpoint (fileContent : Option String)
    (parse : String → Except String Checkpoint) : Checkpoint :=
  match fileContent with
  | none => defaultCheckpoint
  | some s =>
    match parse s with
    | .ok data => data
    | .error _ => defaultCheckpoint

/-- Embedding of `FastDAOFetcher.save_checkpoint` (voting_matrix.py lines 245-265).
Each argument updates its section only when it `is not None`; in
particular a `cursor=None` call leaves `last_delegate_cursor`
untouched, and a non-null cursor also records `delegates_complete =
False`. -/
def save_checkpoint (ck : Checkpoint) (delegates : Option (List Delegate))
    (proposals : Option (List PropNode)) (cursor : Option String)
    (votes_cache : Option (List (String × List Vote)))
    (processed_proposals : Option (List Nat)) : Checkpoint :=
  let ck := match delegates with
    | some ds => { ck with delegates := ds }
    | none => ck
  let ck := match proposals with
    | some ps => { ck with proposals := ps }
    | none => ck
  let ck := match cursor with
    | some c => { ck with last_delegate_cursor := some c, delegates_complete := some false }
    | none => ck
  let ck := match votes_cache with
    | some vc => { ck with votes_cache := vc }
    | none => ck
  match processed_proposals with
  | some pp => { ck with processed_proposals := pp }
  | none => ck

/-- The page-merge step of the delegate loop (voting_matrix.py lines
444-459): validate the batch, collect the lower-cased new and existing
address sets, and drop items colliding with the existing accumulation
when any collision exists. -/
def mergeDelegates (acc batch : List Delegate) : List Delegate :=
  let valid := batch.filter validate_delegate_data
  let newAddresses := valid.map lowerAddr
  let existingAddresses := acc.map lowerAddr
  let dups := newAddresses.filter (fun a => a ∈ existingAddresses)
  let valid2 :=
    if dups ≠ [] then valid.filter (fun d => lowerAddr d ∉ existingAddresses)
    else valid
  acc ++ valid2

/-- Exit reasons of the delegate pagination loop: the non-empty-page
cursor break at line 468 (`Reached end of pagination`), the empty-page
break at line 439 (`No more delegates available`), and exhaustion of
the `consecutive_failures < max_consecutive_failures` guard. -/
inductive ExitKind where
  | reachedEnd
  | noMore
  | cfExhausted
deriving DecidableEq, Repr

/-- In-flight state of the delegate loop: accumulated delegates, the
`after_cursor` for the next request, the consecutive-failure counter
and the in-memory checkpoint dictionary. -/
structure DState where
  acc : List Delegate
  cur : Option String
  cf : Nat
  ck : Checkpoint
deriving DecidableEq, Repr

/-- Terminal outcome of the delegate loop before the final
`save_checkpoint` call. -/
structure DDone where
  acc : List Delegate
  exit : ExitKind
  ck : Checkpoint
deriving DecidableEq, Repr

/-- One iteration of the delegate pagination loop (voting_matrix.py
lines 394-471) over a cursor-indexed page fetch: `fetch cur = none`
models `make_request_optimized` returning `None` or a payload with
falsy `data`; otherwise the pair is the node batch and
`pageInfo.lastCursor`. The five-minute periodic checkpoint (lines
408-414) writes the same `(delegates=acc, cursor=after_cursor)`
snapshot as the failure-path save and depends on the wall clock, so it
is represented by interrupting at a reachable state (see `stepsN`). -/
def dStep (fetch : Option String → Option (List Delegate × Option String))
    (s : DState) : DState ⊕ DDone :=
  if 15 ≤ s.cf then .inr ⟨s.acc, .cfExhausted, s.ck⟩
  else
    match fetch s.cur with
    | none =>
      .inl ⟨s.acc, s.cur, s.cf + 1, save_checkpoint s.ck (some s.acc) none s.cur none none⟩
    | some (batch, lastCur) =>
      if batch.isEmpty then
        if optStrTruthy lastCur ∧ lastCur ≠ s.cur then .inl ⟨s.acc, lastCur, s.cf + 1, s.ck⟩
        else .inr ⟨s.acc, .noMore, s.ck⟩
      else
        if ¬ optStrTruthy lastCur ∨ lastCur = s.cur then
          .inr ⟨mergeDelegates s.acc batch, .reachedEnd, s.ck⟩
        else .inl ⟨mergeDelegates s.acc batch, lastCur, 0, s.ck⟩

/-- Fuel-bounded iteration of `dStep`; `none` when the fuel ran out
before the loop exited. -/
def runLoop (fetch : Option String → Option (List Delegate × Option String)) :
    Nat → DState → Option DDone
  | 0, _ => none
  | n + 1, s =>
    match dStep fetch s with
    | .inr d => some d
    | .inl s' => runLoop fetch n s'

/-- The state reached after exactly `m` non-exiting iterations of the
delegate loop; `none` when the loop exited within `m` steps. An
external interruption "after a page boundary" lands on such a state. -/
def stepsN (fetch : Option String → Option (List Delegate × Option String)) :
    Nat → DState → Option DState
  | 0, s => some s
  | m + 1, s =>
    match dStep fetch s with
    | .inr _ => none
    | .inl s' => stepsN fetch m s'

/-- The final `save_checkpoint(delegates=all_delegates, cursor=None)`
of line 474 applied to a finished loop. -/
def finalizeDelegates (d : DDone) : DDone :=
  ⟨d.acc, d.exit, save_checkpoint d.ck (some d.acc) none none none none⟩

/-- Embedding of `FastDAOFetcher.get_all_delegates_optimized` (voting_matrix.py
lines 332-485): resume from the checkpoint when it holds both
delegates and a truthy cursor (lines 334-343), run the pagination
loop, then perform the completion save of line 474. -/
def get_all_delegates_optimized
    (fetch : Option String → Option (List Delegate × Option String))
    (fuel : Nat) (ck : Checkpoint) : Option DDone :=
  let start : List Delegate × Option String :=
    if ¬ ck.delegates.isEmpty ∧ optStrTruthy ck.last_delegate_cursor then
      (ck.delegates, ck.last_delegate_cursor)
    else ([], none)
  (runLoop fetch fuel ⟨start.1, start.2, 0, ck⟩).map finalizeDelegates

/-- Python exceptions that the shallow embedding makes explicit. -/
inductive PyErr where
  | attributeError
deriving DecidableEq, Repr

/-- One response to a proposals-page request, as the loop body sees it:
`none` is `make_request_optimized` returning Python `None`; `some none`
is a payload whose `data` is falsy; `some (some (batch, lastCursor))`
is a proposals page. -/
def PResp : Type :=
  Option (Option (List PropNode × Option String))

/-- Exit reasons of the proposal pagination loop. -/
inductive PExit where
  | loopBound
  | noCursor
  | cursorStall
  | scriptEnd
deriving DecidableEq, Repr

/-- Embedding of `FastDAOFetcher.validate_proposal_data_improved` (voting_matrix.py
lines 637-659): requires a truthy id, and either some basic structure
(status, onchainId, title or description) or a truthy proposer
address. -/
def validate_proposal_data_improved (p : PropNode) : Bool :=
  if p.id = "" then false
  else
    let basic := p.status.isSome || p.onchainId.isSome ||
      optStrTruthy (p.metadata.bind (fun m => m.title)) ||
      optStrTruthy (p.metadata.bind (fun m => m.description))
    if !basic then optStrTruthy p.proposerAddress else true

/-- The proposal pagination loop of `get_all_proposals_optimized`
(voting_matrix.py lines 571-630) over a scripted response sequence
(one response per request). The body's first access is
`result.get('data')` with no `None` guard (line 589), so a `None`
response raises `AttributeError`, which the embedding surfaces in the
`Except`. `.scriptEnd` marks exhaustion of the finite response script. -/
def proposalsLoop :
    List PResp → List PropNode → Option String → Nat → Nat →
    Except PyErr (List PropNode × PExit)
  | script, acc, cur, pageCount, cf =>
    if ¬ (pageCount < 100 ∧ cf < 10) then .ok (acc, .loopBound)
    else
      match script with
      | [] => .ok (acc, .scriptEnd)
      | r :: rest =>
        match r with
        | none => .error .attributeError
        | some none => proposalsLoop rest acc cur pageCount (cf + 1)
        | some (some (batch, lastCur)) =>
          if batch.isEmpty then proposalsLoop rest acc cur pageCount (cf + 1)
          else
            let valid := batch.filter validate_proposal_data_improved
            let acc2 := acc ++ valid
            if ¬ optStrTruthy lastCur then .ok (acc2, .noCursor)
            else if lastCur = cur then .ok (acc2, .cursorStall)
            else proposalsLoop rest acc2 lastCur (pageCount + 1) 0

/-- Embedding of `FastDAOFetcher.get_all_proposals_optimized` (voting_matrix.py
lines 500-635): return the checkpointed proposals when at least 37 are
cached, otherwise paginate from scratch and save the result. -/
def get_all_proposals_optimized (ck : Checkpoint) (script : List PResp) :
    Except PyErr (List PropNode × Checkpoint) :=
  if ¬ ck.proposals.isEmpty ∧ 37 ≤ ck.proposals.length then .ok (ck.proposals, ck)
  else
    match proposalsLoop script [] none 0 0 with
    | .error e => .error e
    | .ok (acc, _) => .ok (acc, save_checkpoint ck none (some acc) none none none)

/-- The per-voter entry of the comprehensive vote mapping built in
`create_voting_matrix_fast` (voting_matrix.py lines 949-957). -/
structure VoteMapEntry where
  vote : String
  amount : String
  raw_type : String
  reason : String
  block_timestamp : String
  block_number : String
  tx_hash : String
deriving DecidableEq, Repr

/-- Python dict assignment `m[k] = v`: replace in place when the key
exists, else append. -/
def insertReplace (m : List (String × VoteMapEntry)) (k : String)
    (v : VoteMapEntry) : List (String × VoteMapEntry) :=
  if m.any (fun kv => kv.1 = k) then
    m.map (fun kv => if kv.1 = k then (k, v) else kv)
  else m ++ [(k, v)]

/-- Python dict lookup `m.get(k)` / `k in m`. -/
def lookupMap (m : List (String × VoteMapEntry)) (k : String) :
    Option VoteMapEntry :=
  (m.find? (fun kv => kv.1 = k)).map (fun kv => kv.2)

/-- The vote-map entry assembled for one vote (voting_matrix.py lines
949-957): normalized outcome, `str(amount or '0')`, raw type, reason,
block metadata with the `createdAt` fallback, transaction hash. -/
def mkVoteMapEntry (v : Vote) : VoteMapEntry :=
  { vote := normalize_vote_type v,
    amount := if v.amount = "" then "0" else v.amount,
    raw_type := v.type,
    reason := v.reason,
    block_timestamp := ((v.block.bind (fun b => b.timestamp)).getD ((v.createdAt).getD "")),
    block_number := (v.block.bind (fun b => b.number)).getD "",
    tx_hash := v.txHash }

/-- The comprehensive vote mapping keyed by lower-cased voter address
(voting_matrix.py lines 931-957); votes without a truthy voter address
are skipped, later votes from the same address overwrite earlier ones. -/
def buildVoteMap (votes : List Vote) : List (String × VoteMapEntry) :=
  votes.foldl
    (fun m v =>
      match v.voter with
      | none => m
      | some voter =>
        if voter.address = "" then m
        else insertReplace m (pyLower voter.address) (mkVoteMapEntry v))
    []

/-- One output row of the voting matrix (the `record_data` dict of
voting_matrix.py lines 1019-1062). -/
structure VotingRecord where
  delegate_address : String
  delegate_name : String
  delegate_ens : String
  delegate_votes_count : Nat
  delegate_delegators_count : Nat
  has_statement : Bool
  seeking_delegation : Bool
  proposal_id : String
  proposal_onchain_id : String
  proposal_title : String
  proposal_status : String
  proposal_start_timestamp : String
  proposal_end_timestamp : String
  proposal_start_block : String
  proposal_end_block : String
  is_active_delegate : Bool
  dao_name : String
  vote : String
  voting_amount : String
  vote_type_raw : String
  vote_reason : String
  vote_timestamp : String
  vote_block_number : String
  vote_tx_hash : String
  participated : Bool
deriving DecidableEq, Repr

/-- The record built for one (delegate, proposal) pair
(voting_matrix.py lines 1004-1062): base delegate and proposal
snapshot fields, then either the attached vote-map entry or the
"Did Not Vote" sentinel. -/
def mkVotingRecord (daoName : String) (d : Delegate) (p : PropNode)
    (entry : Option VoteMapEntry) : VotingRecord :=
  { delegate_address := d.account.address,
    delegate_name :=
      if d.account.name ≠ "" then d.account.name
      else pyTake d.account.address 10 ++ "...",
    delegate_ens := d.account.ens,
    delegate_votes_count := d.votesCount,
    delegate_delegators_count := d.delegatorsCount,
    has_statement := pyStrip d.statement.statement ≠ "",
    seeking_delegation := d.statement.isSeekingDelegation,
    proposal_id := p.id,
    proposal_onchain_id := p.onchainId.getD "",
    proposal_title := (p.metadata.bind (fun m => m.title)).getD ("Proposal " ++ p.id),
    proposal_status := p.status.getD "unknown",
    proposal_start_timestamp := p.startTimestamp.getD "",
    proposal_end_timestamp := p.endTimestamp.getD "",
    proposal_start_block := p.startBlock.getD "",
    proposal_end_block := p.endBlock.getD "",
    is_active_delegate := 0 < d.votesCount,
    dao_name := daoName,
    vote := match entry with
      | some e => e.vote
      | none => "Did Not Vote",
    voting_amount := match entry with
      | some e => e.amount
      | none => "0",
    vote_type_raw := match entry with
      | some e => e.raw_type
      | none => "",
    vote_reason := match entry with
      | some e => e.reason
      | none => "",
    vote_timestamp := match entry with
      | some e => e.block_timestamp
      | none => "",
    vote_block_number := match entry with
      | some e => e.block_number
      | none => "",
    vote_tx_hash := match entry with
      | some e => e.tx_hash
      | none => "",
    participated := entry.isSome }

/-- Embedding of `FastDAOFetcher.process_all_delegates_for_proposal`
(voting_matrix.py lines 993-1066): one record per delegate, except
that a delegate whose lower-cased account address is falsy is skipped
with `continue` (lines 999-1002). The `votes` argument is accepted, as
in the source, but only the vote map is consulted. -/
def process_all_delegates_for_proposal (daoName : String)
    (delegates : List Delegate) (proposal : PropNode) (votes : List Vote)
    (vote_map : List (String × VoteMapEntry)) : List VotingRecord :=
  let _ := votes
  delegates.filterMap
    (fun d =>
      let addr := pyLower d.account.address
      if addr = "" then none
      else some (mkVotingRecord daoName d proposal (lookupMap vote_map addr)))

/-- The record-assembly core of `FastDAOFetcher.create_voting_matrix_fast`
(voting_matrix.py lines 890-991): for each proposal in order, obtain
its votes (`votesFor` abstracts `get_votes_for_proposal_high_volume`
including its cache), build the vote map, and extend `all_voting_data`
with the per-proposal records. Console statistics and the final export
are outside the model. -/
def create_voting_matrix_fast (daoName : String) (proposals : List PropNode)
    (delegates : List Delegate) (votesFor : PropNode → List Vote) :
    List VotingRecord :=
  (proposals.map
    (fun p =>
      let votes := votesFor p
      process_all_delegates_for_proposal daoName delegates p votes
        (buildVoteMap votes))).flatten

/-- Outcome of the cursor check at the end of a successful vote page
(voting_matrix.py lines 777-792). -/
inductive VoteCursorStep where
  | breakEnd
  | retryStall
  | advance (c : String)
deriving DecidableEq, Repr

/-- The cursor check of `get_votes_for_proposal_high_volume`
(voting_matrix.py lines 777-792): a missing or repeated cursor ends
pagination unless an expected total is known and not yet reached, in
which case the consecutive-failure counter is bumped and the page is
retried; otherwise the cursor advances. -/
def votePagCursorCheck (newCursor afterCursor : Option String) (numVotes : Nat)
    (expectedTotal : Option Nat) : VoteCursorStep :=
  if ¬ optStrTruthy newCursor ∨ newCursor = afterCursor then
    match expectedTotal with
    | none => .breakEnd
    | some t => if t ≤ numVotes then .breakEnd else .retryStall
  else
    match newCursor with
    | some c => .advance c
    | none => .breakEnd

/-- Fixture: a delegate with the given account address and default
attributes. -/
def mkDel (a : String) : Delegate :=
  { account := { address := a } }

/-- Fixture for C1: a fetch function under which a run resumed from
cursor "c1" retrieves one further page and then reaches the
end-of-pagination break (repeated cursor "c2"). -/
def c1Fetch : Option String → Option (List Delegate × Option String)
  | some "c1" => some ([mkDel "b"], some "c2")
  | some "c2" => some ([mkDel "d"], some "c2")
  | _ => some ([], none)

/-- Fixture for C1: the checkpoint left by an earlier interrupted run,
holding one delegate and the resume cursor "c1". -/
def c1Start : Checkpoint :=
  { delegates := [mkDel "a"], last_delegate_cursor := some "c1" }

/-- Fixture for C2: every page is non-empty and returns the same
cursor "cx". -/
def c2Fetch : Option String → Option (List Delegate × Option String)
  | none => some ([mkDel "a"], some "cx")
  | some _ => some ([mkDel "b"], some "cx")

/-- Fixture for C8: a single page holding two records whose addresses
lower-case to the same key "a". -/
def c8Fetch : Option String → Option (List Delegate × Option String)
  | _ => some ([mkDel "A", mkDel "a"], none)

/-- Fixture for C5/C10: a delegate with an empty account address. -/
def c5BadDelegate : Delegate :=
  { account := { address := "" } }

/-- Fixture for C5: a minimal proposal. -/
def c5Proposal : PropNode :=
  { id := "p1" }

/-- Fixture for the C8 witness: every page is the same singleton. -/
def c8wFetch : Option String → Option (List Delegate × Option String) :=
  fun _ => some ([mkDel "w"], none)

/-- Fixture for the C8 witness: the finished run on `c8wFetch`. -/
def c8wDone : DDone :=
  ⟨[mkDel "w"], .reachedEnd, { delegates := [mkDel "w"] }⟩

/-- Fixture for the C4 counterexample: successor map over the cursor
chain s1 … s16. -/
def c4Next : String → String
  | "s1" => "s2"
  | "s2" => "s3"
  | "s3" => "s4"
  | "s4" => "s5"
  | "s5" => "s6"
  | "s6" => "s7"
  | "s7" => "s8"
  | "s8" => "s9"
  | "s9" => "s10"
  | "s10" => "s11"
  | "s11" => "s12"
  | "s12" => "s13"
  | "s13" => "s14"
  | "s14" => "s15"
  | "s15" => "s16"
  | _ => ""

/-- Fixture for the C4 counterexample: one item, then fifteen empty
pages that keep advancing the cursor, then one final item. -/
def c4Fetch : Option String → Option (List Delegate × Option String)
  | none => some ([mkDel "a"], some "s1")
  | some s => if s = "s16" then some ([mkDel "b"], none) else some ([], some (c4Next s))

/-- Fixture for the C4 witness: two pages then a natural end. -/
def c4wFetch : Option String → Option (List Delegate × Option String)
  | none => some ([mkDel "a"], some "c1")
  | some _ => some ([mkDel "b"], none)

/-- Fixture for the C4 witness: the uninterrupted result on `c4wFetch`. -/
def c4wDone : DDone :=
  ⟨[mkDel "a", mkDel "b"], .reachedEnd, { delegates := [mkDel "a", mkDel "b"] }⟩

/-- Fixture for the C4 witness: the state after the first page. -/
def c4wMid : DState :=
  ⟨[mkDel "a"], some "c1", 0, defaultCheckpoint⟩

/-- C6: for every vote record with raw type string "FOR", amount "0",
empty reason and empty transaction hash, the normalizer returns "For":
the synonym-table match of the type string (rule 1) takes precedence
over the positive-amount inference (rule 2), so the zero amount does
not change the outcome. -/
theorem C6_type_synonym_precedence (v : Vote) (ht : v.type = "FOR")
    (ha : v.amount = "0") (hr : v.reason = "") (hx : v.txHash = "") :
    normalize_vote_type v = "For" := by
  have htable : typeTableMatch (pyStrip "FOR") = some "For" := by decide
  simp [normalize_vote_type, ht, htable]

/-- Witness for C6 at the concrete record of the claim. -/
theorem C6_type_synonym_precedence_witness :
    normalize_vote_type { type := "FOR", amount := "0", reason := "", txHash := "" } = "For" :=
  C6_type_synonym_precedence _ rfl rfl rfl rfl

/-- C7: for every vote record whose raw type string matches no
synonym-table entry, whose amount is zero, whose reason is empty and
whose transaction hash is non-empty, the normalizer returns "Voted":
rules 1-3 fail and the transaction-hash rule 4 fires before the
Unknown fallback. -/
theorem C7_txhash_yields_voted (v : Vote)
    (h1 : typeTableMatch (pyStrip v.type) = none)
    (h2 : amountValue v.amount = 0) (h3 : v.reason = "") (h4 : v.txHash ≠ "") :
    normalize_vote_type v = "Voted" := by
  simp [normalize_vote_type, h1, h2, h3, h4, pyLower]

/-- Witness for C7 at a concrete record with an unrecognized type. -/
theorem C7_txhash_yields_voted_witness :
    normalize_vote_type { type := "banana", amount := "0", reason := "", txHash := "0x1" } = "Voted" :=
  C7_txhash_yields_voted _ (by decide) (by decide) rfl (by decide)

/-- C9: for every checkpoint file content on which the parser
(`json.load` plus dict construction) fails, `load_checkpoint` returns
the default empty state — empty delegates, empty proposals, null
delegate cursor, empty votes cache, empty processed-proposals list —
rather than propagating the exception. -/
theorem C9_corrupt_checkpoint_defaults (s : String)
    (parse : String → Except String Checkpoint) (e : String)
    (hp : parse s = .error e) :
    load_checkpoint (some s) parse = defaultCheckpoint ∧
    defaultCheckpoint.delegates = [] ∧
    defaultCheckpoint.proposals = [] ∧
    defaultCheckpoint.last_delegate_cursor = none ∧
    defaultCheckpoint.votes_cache = [] ∧
    defaultCheckpoint.processed_proposals = [] := by
  refine ⟨?_, rfl, rfl, rfl, rfl, rfl⟩
  simp [load_checkpoint, hp]

/-- Witness for C9 on a truncated JSON document and a failing parser. -/
theorem C9_corrupt_checkpoint_defaults_witness :
    load_checkpoint (some "[truncated") (fun _ => .error "Expecting value") = defaultCheckpoint ∧
    defaultCheckpoint.delegates = [] ∧
    defaultCheckpoint.proposals = [] ∧
    defaultCheckpoint.last_delegate_cursor = none ∧
    defaultCheckpoint.votes_cache = [] ∧
    defaultCheckpoint.processed_proposals = [] :=
  C9_corrupt_checkpoint_defaults "[truncated" (fun _ => .error "Expecting value")
    "Expecting value" rfl

/-- C3 (code bug): when `make_request_optimized` exhausts its retries
and returns `None` for a proposals page, the proposal-pagination loop
does not surface a typed failure — its unguarded `result.get('data')`
at line 589 raises an `AttributeError`, aborting
`get_all_proposals_optimized` with no checkpoint of the accumulation. -/
theorem C3_proposals_none_raises :
    get_all_proposals_optimized defaultCheckpoint [none] = .error .attributeError := rfl

/-- C1 (code bug): a delegate run that terminates through the
end-of-pagination exit still leaves the stale non-null resume cursor
"c1" in the persisted checkpoint, because the completion save of line
474 passes `cursor=None` and `save_checkpoint` only writes the cursor
when it `is not None`; the completed collection is returned as final
while a non-null resume cursor remains persisted. -/
theorem C1_completion_keeps_stale_cursor :
    (get_all_delegates_optimized c1Fetch 10 c1Start).map
        (fun d => (d.exit, d.ck.last_delegate_cursor)) =
      some (.reachedEnd, some "c1") := by decide

/-- Counterexample to C2 as stated: on two consecutive non-empty pages
returning the identical non-null cursor "cx", the delegate paginator
terminates through the normal end-of-pagination path with the
consecutive-failure counter untouched, not through the bounded
consecutive-failure path. -/
theorem C2_counterexample :
    (get_all_delegates_optimized c2Fetch 10 defaultCheckpoint).map
        (fun d => (d.acc, d.exit)) =
      some ([mkDel "a", mkDel "b"], .reachedEnd) ∧
    ExitKind.reachedEnd ≠ ExitKind.cfExhausted := by decide

/-- Counterexample to C8 as stated: after merging a page that itself
contains two records with the lower-cased address "a", the accumulated
collection holds two records for that address — the dedup filter only
compares against the pre-existing accumulation. -/
theorem C8_counterexample :
    (get_all_delegates_optimized c8Fetch 5 defaultCheckpoint).map
        (fun d => (d.acc.filter (fun x => lowerAddr x = "a")).length) =
      some 2 ∧ (2 : Nat) ≠ 1 := by decide

/-- Counterexample to C5 as stated: with one proposal, one delegate
whose account address is empty and no votes, the matrix builder emits
zero records, not P×D = 1. -/
theorem C5_counterexample :
    ¬ ((create_voting_matrix_fast "DAO" [c5Proposal] [c5BadDelegate]
          (fun _ => [])).length =
        [c5Proposal].length * [c5BadDelegate].length) := by decide

/-- A string lower-cases to the empty string exactly when it is empty. -/
theorem pyLower_eq_empty_iff (s : String) : pyLower s = "" ↔ s = "" := by
  cases s with
  | mk data => simp [pyLower, String.ext_iff]

/-- Per-proposal record count: one record per delegate with a truthy
account address. -/
theorem process_length (daoName : String) (delegates : List Delegate)
    (proposal : PropNode) (votes : List Vote)
    (vmap : List (String × VoteMapEntry)) :
    (process_all_delegates_for_proposal daoName delegates proposal votes vmap).length =
      (delegates.filter (fun d => d.account.address ≠ "")).length := by
  induction delegates with
  | nil => rfl
  | cons d ds ih =>
    by_cases h : d.account.address = ""
    · have hl : pyLower d.account.address = "" := (pyLower_eq_empty_iff _).mpr h
      simp [process_all_delegates_for_proposal, List.filterMap_cons, hl, h,
        List.filter_cons] at *
      exact ih
    · have hl : ¬ pyLower d.account.address = "" :=
        fun hc => h ((pyLower_eq_empty_iff _).mp hc)
      simp [process_all_delegates_for_proposal, List.filterMap_cons, hl, h,
        List.filter_cons] at *
      exact ih

/-- Record count of the whole matrix: proposals times delegates with a
truthy address. -/
theorem create_length (daoName : String) (proposals : List PropNode)
    (delegates : List Delegate) (votesFor : PropNode → List Vote) :
    (create_voting_matrix_fast daoName proposals delegates votesFor).length =
      proposals.length * (delegates.filter (fun d => d.account.address ≠ "")).length := by
  induction proposals with
  | nil => simp [create_voting_matrix_fast]
  | cons p ps ih =>
    simp only [create_voting_matrix_fast, List.map_cons, List.flatten_cons,
      List.length_append, process_length, List.length_cons] at *
    rw [ih]
    ring

/-- Shape of a member of a per-proposal record list: it comes from a
delegate whose lower-cased address is truthy, with the vote-map lookup
attached. -/
theorem mem_process (daoName : String) (delegates : List Delegate)
    (proposal : PropNode) (votes : List Vote)
    (vmap : List (String × VoteMapEntry)) (r : VotingRecord)
    (hr : r ∈ process_all_delegates_for_proposal daoName delegates proposal votes vmap) :
    ∃ d ∈ delegates, ¬ pyLower d.account.address = "" ∧
      r = mkVotingRecord daoName d proposal (lookupMap vmap (pyLower d.account.address)) := by
  simp only [process_all_delegates_for_proposal, List.mem_filterMap] at hr
  obtain ⟨d, hd, hfd⟩ := hr
  by_cases h : pyLower d.account.address = ""
  · simp [h] at hfd
  · refine ⟨d, hd, h, ?_⟩
    simp [h] at hfd
    exact hfd.symm

/-- Shape of a member of the full matrix output. -/
theorem mem_create (daoName : String) (proposals : List PropNode)
    (delegates : List Delegate) (votesFor : PropNode → List Vote)
    (r : VotingRecord)
    (hr : r ∈ create_voting_matrix_fast daoName proposals delegates votesFor) :
    ∃ p ∈ proposals, ∃ d ∈ delegates, ¬ pyLower d.account.address = "" ∧
      r = mkVotingRecord daoName d p
        (lookupMap (buildVoteMap (votesFor p)) (pyLower d.account.address)) := by
  simp only [create_voting_matrix_fast, List.mem_flatten, List.mem_map] at hr
  obtain ⟨l, ⟨p, hp, hl⟩, hrl⟩ := hr
  subst hl
  obtain ⟨d, hd, hne, heq⟩ := mem_process _ _ _ _ _ _ hrl
  exact ⟨p, hp, d, hd, hne, heq⟩

/-- C10: a delegate whose account address is missing or empty produces
no record for any proposal — every emitted record carries a non-empty
delegate address — and the output record count equals the number of
proposals times the number of delegates with a non-empty address, not
times the length of the input delegate list. -/
theorem C10_empty_address_skipped (daoName : String) (proposals : List PropNode)
    (delegates : List Delegate) (votesFor : PropNode → List Vote) :
    (create_voting_matrix_fast daoName proposals delegates votesFor).length =
      proposals.length * (delegates.filter (fun d => d.account.address ≠ "")).length ∧
    ∀ r ∈ create_voting_matrix_fast daoName proposals delegates votesFor,
      r.delegate_address ≠ "" := by
  refine ⟨create_length daoName proposals delegates votesFor, ?_⟩
  intro r hr
  obtain ⟨p, hp, d, hd, hne, heq⟩ := mem_create _ _ _ _ _ hr
  subst heq
  simp only [mkVotingRecord]
  exact fun hc => hne ((pyLower_eq_empty_iff _).mpr hc)

/-- C5 (amended): for proposals and delegates in which every delegate
has a non-empty account address, and with no votes on any proposal,
the matrix builder yields exactly P×D records and every record carries
the "Did Not Vote" sentinel, the sentinel vote fields and
`participated = false`. -/
theorem C5_amended_cross_join (daoName : String) (proposals : List PropNode)
    (delegates : List Delegate) (votesFor : PropNode → List Vote) (r : VotingRecord)
    (haddr : ∀ d ∈ delegates, d.account.address ≠ "")
    (hvotes : ∀ p ∈ proposals, votesFor p = [])
    (hmem : r ∈ create_voting_matrix_fast daoName proposals delegates votesFor) :
    (create_voting_matrix_fast daoName proposals delegates votesFor).length =
      proposals.length * delegates.length ∧
    r.vote = "Did Not Vote" ∧ r.participated = false ∧ r.voting_amount = "0" ∧
    r.vote_type_raw = "" ∧ r.vote_reason = "" ∧ r.vote_timestamp = "" ∧
    r.vote_block_number = "" ∧ r.vote_tx_hash = "" := by
  constructor
  · rw [create_length]
    congr 2
    rw [List.filter_eq_self.mpr]
    intro d hd
    simpa using haddr d hd
  · obtain ⟨p, hp, d, hd, hne, heq⟩ := mem_create _ _ _ _ _ hmem
    subst heq
    rw [hvotes p hp]
    simp [buildVoteMap, lookupMap, mkVotingRecord]

/-- Witness for the amended C5 on one proposal, one valid delegate and
no votes. -/
theorem C5_amended_cross_join_witness :
    (create_voting_matrix_fast "DAO" [c5Proposal] [mkDel "a"] (fun _ => [])).length =
      [c5Proposal].length * [mkDel "a"].length ∧
    (mkVotingRecord "DAO" (mkDel "a") c5Proposal none).vote = "Did Not Vote" ∧
    (mkVotingRecord "DAO" (mkDel "a") c5Proposal none).participated = false ∧
    (mkVotingRecord "DAO" (mkDel "a") c5Proposal none).voting_amount = "0" ∧
    (mkVotingRecord "DAO" (mkDel "a") c5Proposal none).vote_type_raw = "" ∧
    (mkVotingRecord "DAO" (mkDel "a") c5Proposal none).vote_reason = "" ∧
    (mkVotingRecord "DAO" (mkDel "a") c5Proposal none).vote_timestamp = "" ∧
    (mkVotingRecord "DAO" (mkDel "a") c5Proposal none).vote_block_number = "" ∧
    (mkVotingRecord "DAO" (mkDel "a") c5Proposal none).vote_tx_hash = "" :=
  C5_amended_cross_join "DAO" [c5Proposal] [mkDel "a"] (fun _ => [])
    (mkVotingRecord "DAO" (mkDel "a") c5Proposal none)
    (by decide) (fun p _ => rfl) (by decide)

/-- The page-merge step spelled out: valid items whose lower-cased
address already appears in the accumulation are dropped, all others
(including intra-page repeats of a new address) are appended in order;
the `if duplicates:` guard of the source is equivalent to always
filtering. -/
theorem mergeDelegates_eq (acc batch : List Delegate) :
    mergeDelegates acc batch =
      acc ++ (batch.filter validate_delegate_data).filter
        (fun d => lowerAddr d ∉ acc.map lowerAddr) := by
  dsimp only [mergeDelegates]
  by_cases h :
      ((batch.filter validate_delegate_data).map lowerAddr).filter
        (fun a => a ∈ acc.map lowerAddr) = []
  · rw [if_neg (not_not_intro h)]
    congr 1
    rw [eq_comm, List.filter_eq_self]
    intro d hd
    rw [List.filter_eq_nil_iff] at h
    simp only [decide_eq_true_eq]
    intro hc
    exact h (lowerAddr d) (List.mem_map_of_mem lowerAddr hd) (by simpa using hc)
  · rw [if_pos (by simpa using h)]

/-- Merging a page with no repeated lower-cased address into an
accumulation with no repeated lower-cased address keeps the
accumulation free of repeats. -/
theorem mergeDelegates_nodup (acc batch : List Delegate)
    (ha : (acc.map lowerAddr).Nodup) (hb : (batch.map lowerAddr).Nodup) :
    ((mergeDelegates acc batch).map lowerAddr).Nodup := by
  rw [mergeDelegates_eq, List.map_append, List.nodup_append]
  refine ⟨ha, ?_, ?_⟩
  · have hsub : List.Sublist ((batch.filter validate_delegate_data).filter
        (fun d => decide (lowerAddr d ∉ acc.map lowerAddr))) batch :=
      (List.filter_sublist _).trans (List.filter_sublist _)
    exact hb.sublist (hsub.map lowerAddr)
  · intro a hamem hamem2
    rw [List.mem_map] at hamem2
    obtain ⟨d, hd, rfl⟩ := hamem2
    rw [List.mem_filter] at hd
    exact (of_decide_eq_true hd.2) hamem

/-- One loop iteration preserves freedom from repeated lower-cased
addresses in the accumulation, provided every fetched page is itself
free of repeats. -/
theorem dStep_acc_nodup (fetch : Option String → Option (List Delegate × Option String))
    (s : DState)
    (hfetch : ∀ cur batch lc, fetch cur = some (batch, lc) → (batch.map lowerAddr).Nodup)
    (hs : (s.acc.map lowerAddr).Nodup) :
    (∀ s', dStep fetch s = .inl s' → (s'.acc.map lowerAddr).Nodup) ∧
    (∀ d, dStep fetch s = .inr d → (d.acc.map lowerAddr).Nodup) := by
  unfold dStep
  by_cases hcf : 15 ≤ s.cf
  · rw [if_pos hcf]
    constructor
    · intro s' h
      simp at h
    · intro d h
      simp only [Sum.inr.injEq] at h
      subst h
      exact hs
  · rw [if_neg hcf]
    rcases hf : fetch s.cur with _ | ⟨batch, lastCur⟩
    · constructor
      · intro s' h
        simp only [Sum.inl.injEq] at h
        subst h
        exact hs
      · intro d h
        simp at h
    · by_cases hbe : batch.isEmpty
      · simp only [hbe, if_true]
        by_cases hadv : optStrTruthy lastCur ∧ lastCur ≠ s.cur
        · rw [if_pos hadv]
          constructor
          · intro s' h
            simp only [Sum.inl.injEq] at h
            subst h
            exact hs
          · intro d h
            simp at h
        · rw [if_neg hadv]
          constructor
          · intro s' h
            simp at h
          · intro d h
            simp only [Sum.inr.injEq] at h
            subst h
            exact hs
      · simp only [hbe, if_false]
        by_cases hend : ¬ optStrTruthy lastCur ∨ lastCur = s.cur
        · rw [if_pos hend]
          constructor
          · intro s' h
            simp at h
          · intro d h
            cases h
            exact mergeDelegates_nodup _ _ hs (hfetch _ _ _ hf)
        · rw [if_neg hend]
          constructor
          · intro s' h
            cases h
            exact mergeDelegates_nodup _ _ hs (hfetch _ _ _ hf)
          · intro d h
            simp at h

/-- The loop-level address-uniqueness invariant. -/
theorem runLoop_nodup (fetch : Option String → Option (List Delegate × Option String))
    (hfetch : ∀ cur batch lc, fetch cur = some (batch, lc) → (batch.map lowerAddr).Nodup) :
    ∀ (fuel : Nat) (s : DState), (s.acc.map lowerAddr).Nodup →
      ∀ d, runLoop fetch fuel s = some d → (d.acc.map lowerAddr).Nodup := by
  intro fuel
  induction fuel with
  | zero =>
    intro s hs d hd
    simp [runLoop] at hd
  | succ n ih =>
    intro s hs d hd
    rw [runLoop] at hd
    rcases hstep : dStep fetch s with s' | dd <;> rw [hstep] at hd
    · exact ih s' ((dStep_acc_nodup fetch s hfetch hs).1 s' hstep) d hd
    · simp only [Option.some.injEq] at hd
      subst hd
      exact (dStep_acc_nodup fetch s hfetch hs).2 dd hstep

/-- Extra fuel never changes the outcome of a finished loop. -/
theorem runLoop_fuel_mono (fetch : Option String → Option (List Delegate × Option String)) :
    ∀ (n k : Nat) (s : DState) (d : DDone),
      runLoop fetch n s = some d → runLoop fetch (n + k) s = some d := by
  intro n
  induction n with
  | zero =>
    intro k s d h
    simp [runLoop] at h
  | succ m ih =>
    intro k s d h
    rw [runLoop] at h
    have hadd : m + 1 + k = (m + k) + 1 := by omega
    rw [hadd, runLoop]
    rcases hstep : dStep fetch s with s' | dd
    · rw [hstep] at h
      exact ih k s' d h
    · rw [hstep] at h
      exact h

/-- Decomposition: a finished run can be split at any reachable
intermediate state, with the tail run finishing on the remaining
fuel. -/
theorem stepsN_runLoop (fetch : Option String → Option (List Delegate × Option String)) :
    ∀ (m : Nat) (s s' : DState), stepsN fetch m s = some s' →
      ∀ (fuel : Nat) (d : DDone), runLoop fetch fuel s = some d →
        m < fuel ∧ runLoop fetch (fuel - m) s' = some d := by
  intro m
  induction m with
  | zero =>
    intro s s' hs fuel d hd
    simp [stepsN] at hs
    subst hs
    refine ⟨?_, by simpa using hd⟩
    rcases fuel with _ | f
    · simp [runLoop] at hd
    · omega
  | succ k ih =>
    intro s s' hs fuel d hd
    rw [stepsN] at hs
    rcases hstep : dStep fetch s with s1 | dd <;> rw [hstep] at hs
    · rcases fuel with _ | f
      · simp [runLoop] at hd
      · rw [runLoop, hstep] at hd
        obtain ⟨h1, h2⟩ := ih s1 s' hs f d hd
        refine ⟨by omega, ?_⟩
        have heq : f + 1 - (k + 1) = f - k := by omega
        rw [heq]
        exact h2
    · simp at hs

/-- Simulation: from the same accumulation and cursor, a run with a
smaller consecutive-failure counter and any checkpoint contents
produces the same accumulated items and the same exit, provided the
reference run does not exit through the failure bound — the counter
and the checkpoint never influence a branch other than the bound
check. -/
theorem runLoop_cf_le (fetch : Option String → Option (List Delegate × Option String)) :
    ∀ (n : Nat) (acc : List Delegate) (cur : Option String) (cf cf' : Nat)
      (ck ck' : Checkpoint) (d : DDone),
      cf' ≤ cf → runLoop fetch n ⟨acc, cur, cf, ck⟩ = some d →
      d.exit ≠ .cfExhausted →
      ∃ d', runLoop fetch n ⟨acc, cur, cf', ck'⟩ = some d' ∧
        d'.acc = d.acc ∧ d'.exit = d.exit := by
  intro n
  induction n with
  | zero =>
    intro acc cur cf cf' ck ck' d hle h hex
    simp [runLoop] at h
  | succ m ih =>
    intro acc cur cf cf' ck ck' d hle h hex
    rw [runLoop] at h ⊢
    by_cases hcf : 15 ≤ cf
    · exfalso
      have hd : dStep fetch ⟨acc, cur, cf, ck⟩ = .inr ⟨acc, .cfExhausted, ck⟩ := by
        unfold dStep
        rw [if_pos hcf]
      rw [hd] at h
      have : (⟨acc, .cfExhausted, ck⟩ : DDone) = d := Option.some.inj h
      rw [← this] at hex
      exact hex rfl
    · have hcf' : ¬ 15 ≤ cf' := by omega
      rcases hf : fetch cur with _ | ⟨batch, lastCur⟩
      · have hd1 : dStep fetch ⟨acc, cur, cf, ck⟩ = .inl
            ⟨acc, cur, cf + 1, save_checkpoint ck (some acc) none cur none none⟩ := by
          unfold dStep
          rw [if_neg hcf, hf]
        have hd2 : dStep fetch ⟨acc, cur, cf', ck'⟩ = .inl
            ⟨acc, cur, cf' + 1, save_checkpoint ck' (some acc) none cur none none⟩ := by
          unfold dStep
          rw [if_neg hcf', hf]
        rw [hd1] at h
        rw [hd2]
        exact ih acc cur (cf + 1) (cf' + 1) _ _ d (by omega) h hex
      · by_cases hbe : batch.isEmpty
        · by_cases hadv : optStrTruthy lastCur ∧ lastCur ≠ cur
          · have hd1 : dStep fetch ⟨acc, cur, cf, ck⟩ = .inl ⟨acc, lastCur, cf + 1, ck⟩ := by
              unfold dStep
              rw [if_neg hcf, hf]
              dsimp only
              rw [if_pos hbe, if_pos hadv]
            have hd2 : dStep fetch ⟨acc, cur, cf', ck'⟩ = .inl ⟨acc, lastCur, cf' + 1, ck'⟩ := by
              unfold dStep
              rw [if_neg hcf', hf]
              dsimp only
              rw [if_pos hbe, if_pos hadv]
            rw [hd1] at h
            rw [hd2]
            exact ih acc lastCur (cf + 1) (cf' + 1) _ _ d (by omega) h hex
          · have hd1 : dStep fetch ⟨acc, cur, cf, ck⟩ = .inr ⟨acc, .noMore, ck⟩ := by
              unfold dStep
              rw [if_neg hcf, hf]
              dsimp only
              rw [if_pos hbe, if_neg hadv]
            have hd2 : dStep fetch ⟨acc, cur, cf', ck'⟩ = .inr ⟨acc, .noMore, ck'⟩ := by
              unfold dStep
              rw [if_neg hcf', hf]
              dsimp only
              rw [if_pos hbe, if_neg hadv]
            rw [hd1] at h
            rw [hd2]
            have hval : (⟨acc, .noMore, ck⟩ : DDone) = d := Option.some.inj h
            refine ⟨⟨acc, .noMore, ck'⟩, rfl, ?_, ?_⟩
            · rw [← hval]
            · rw [← hval]
        · by_cases hend : ¬ optStrTruthy lastCur ∨ lastCur = cur
          · have hd1 : dStep fetch ⟨acc, cur, cf, ck⟩ =
                .inr ⟨mergeDelegates acc batch, .reachedEnd, ck⟩ := by
              unfold dStep
              rw [if_neg hcf, hf]
              dsimp only
              rw [if_neg hbe, if_pos hend]
            have hd2 : dStep fetch ⟨acc, cur, cf', ck'⟩ =
                .inr ⟨mergeDelegates acc batch, .reachedEnd, ck'⟩ := by
              unfold dStep
              rw [if_neg hcf', hf]
              dsimp only
              rw [if_neg hbe, if_pos hend]
            rw [hd1] at h
            rw [hd2]
            have hval : (⟨mergeDelegates acc batch, .reachedEnd, ck⟩ : DDone) = d :=
              Option.some.inj h
            refine ⟨⟨mergeDelegates acc batch, .reachedEnd, ck'⟩, rfl, ?_, ?_⟩
            · rw [← hval]
            · rw [← hval]
          · have hd1 : dStep fetch ⟨acc, cur, cf, ck⟩ =
                .inl ⟨mergeDelegates acc batch, lastCur, 0, ck⟩ := by
              unfold dStep
              rw [if_neg hcf, hf]
              dsimp only
              rw [if_neg hbe, if_neg hend]
            have hd2 : dStep fetch ⟨acc, cur, cf', ck'⟩ =
                .inl ⟨mergeDelegates acc batch, lastCur, 0, ck'⟩ := by
              unfold dStep
              rw [if_neg hcf', hf]
              dsimp only
              rw [if_neg hbe, if_neg hend]
            rw [hd1] at h
            rw [hd2]
            exact ih (mergeDelegates acc batch) lastCur 0 0 _ _ d (by omega) h hex

/-- Invariant along a run: while the working cursor is still null the
persisted delegate cursor is also null — the cursor only ever advances
to truthy values, and the failure-path save passes the working
cursor. -/
theorem stepsN_cur_inv (fetch : Option String → Option (List Delegate × Option String)) :
    ∀ (m : Nat) (s s' : DState), stepsN fetch m s = some s' →
      (s.cur = none → s.ck.last_delegate_cursor = none) →
      (s'.cur = none → s'.ck.last_delegate_cursor = none) := by
  intro m
  induction m with
  | zero =>
    intro s s' h hinv
    simp [stepsN] at h
    subst h
    exact hinv
  | succ k ih =>
    intro s s' h hinv
    rw [stepsN] at h
    rcases hstep : dStep fetch s with s1 | dd <;> rw [hstep] at h
    · refine ih s1 s' h ?_
      unfold dStep at hstep
      by_cases hcf : 15 ≤ s.cf
      · rw [if_pos hcf] at hstep
        simp at hstep
      · rw [if_neg hcf] at hstep
        rcases hf : fetch s.cur with _ | ⟨batch, lastCur⟩ <;> rw [hf] at hstep
        · cases hstep
          intro hc
          simp only at hc
          simp only [hc, save_checkpoint]
          exact hinv hc
        · dsimp only at hstep
          by_cases hbe : batch.isEmpty
          · rw [if_pos hbe] at hstep
            by_cases hadv : optStrTruthy lastCur ∧ lastCur ≠ s.cur
            · rw [if_pos hadv] at hstep
              cases hstep
              intro hc
              simp only at hc
              exfalso
              rw [hc] at hadv
              simp [optStrTruthy] at hadv
            · rw [if_neg hadv] at hstep
              simp at hstep
          · rw [if_neg hbe] at hstep
            by_cases hend : ¬ optStrTruthy lastCur ∨ lastCur = s.cur
            · rw [if_pos hend] at hstep
              simp at hstep
            · rw [if_neg hend] at hstep
              cases hstep
              intro hc
              simp only at hc
              exfalso
              rw [not_or, not_not] at hend
              rw [hc] at hend
              simp [optStrTruthy] at hend
    · simp at h

/-- C2 (amended): two consecutive non-empty pages with the identical
non-null cursor do not make the paginator loop forever, but the exits
differ from the claim: the delegate loop merges the repeated page and
terminates immediately through the normal end-of-pagination path with
the consecutive-failure counter below its bound, while the vote loop
ends through its normal break when no expected total is known (or it
is reached) and only counts a consecutive failure and retries when the
expected total is known and unmet. -/
theorem C2_amended_stall_exits
    (fetch : Option String → Option (List Delegate × Option String))
    (acc : List Delegate) (c : String) (cf : Nat) (ck : Checkpoint)
    (batch : List Delegate) (fuel n t : Nat)
    (hcf : cf < 15) (hfetch : fetch (some c) = some (batch, some c))
    (hb : batch ≠ []) (hnt : n < t) :
    runLoop fetch (fuel + 1) ⟨acc, some c, cf, ck⟩ =
      some ⟨mergeDelegates acc batch, .reachedEnd, ck⟩ ∧
    votePagCursorCheck (some c) (some c) n none = .breakEnd ∧
    votePagCursorCheck (some c) (some c) n (some t) = .retryStall := by
  refine ⟨?_, ?_, ?_⟩
  · have hbe : batch.isEmpty = false := by simpa [List.isEmpty_iff] using hb
    simp [runLoop, dStep, hfetch, hbe, Nat.not_le.mpr hcf]
  · simp [votePagCursorCheck]
  · simp [votePagCursorCheck, Nat.not_le.mpr hnt]

/-- Witness for the amended C2 at a concrete one-page stall. -/
theorem C2_amended_stall_exits_witness :
    runLoop (fun _ => some ([mkDel "a"], some "c")) (3 + 1)
        ⟨[], some "c", 0, defaultCheckpoint⟩ =
      some ⟨mergeDelegates [] [mkDel "a"], .reachedEnd, defaultCheckpoint⟩ ∧
    votePagCursorCheck (some "c") (some "c") 0 none = .breakEnd ∧
    votePagCursorCheck (some "c") (some "c") 0 (some 1) = .retryStall :=
  C2_amended_stall_exits (fun _ => some ([mkDel "a"], some "c")) [] "c" 0
    defaultCheckpoint [mkDel "a"] 3 0 1 (by omega) rfl (by decide) (by omega)

/-- C8 (amended): when a page is merged, every valid item whose
lower-cased address already appears in the accumulation is dropped and
the remaining items are appended unchanged; consequently, provided
every page served by the fetch function is itself free of repeated
lower-cased addresses, the accumulated collection of a finished
delegate run holds at most one record per lower-cased address.
(Intra-page repeats of a new address are all appended, which is what
the counterexample exploits.) -/
theorem C8_amended_dedup
    (fetch : Option String → Option (List Delegate × Option String))
    (fuel : Nat) (ck : Checkpoint) (d : DDone) (a b : List Delegate)
    (hfetch : ∀ cur batch lc, fetch cur = some (batch, lc) → (batch.map lowerAddr).Nodup)
    (hck : (ck.delegates.map lowerAddr).Nodup)
    (hrun : get_all_delegates_optimized fetch fuel ck = some d) :
    mergeDelegates a b =
      a ++ (b.filter validate_delegate_data).filter
        (fun x => lowerAddr x ∉ a.map lowerAddr) ∧
    (d.acc.map lowerAddr).Nodup := by
  refine ⟨mergeDelegates_eq a b, ?_⟩
  unfold get_all_delegates_optimized at hrun
  by_cases hc : ¬ ck.delegates.isEmpty ∧ optStrTruthy ck.last_delegate_cursor
  · rw [if_pos hc] at hrun
    dsimp only at hrun
    rcases hr : runLoop fetch fuel ⟨ck.delegates, ck.last_delegate_cursor, 0, ck⟩ with _ | d0
    · rw [hr] at hrun
      simp at hrun
    · rw [hr] at hrun
      simp only [Option.map_some'] at hrun
      have hnd := runLoop_nodup fetch hfetch fuel _ hck d0 hr
      have heq : finalizeDelegates d0 = d := Option.some.inj hrun
      rw [← heq]
      exact hnd
  · rw [if_neg hc] at hrun
    dsimp only at hrun
    rcases hr : runLoop fetch fuel ⟨[], none, 0, ck⟩ with _ | d0
    · rw [hr] at hrun
      simp at hrun
    · rw [hr] at hrun
      simp only [Option.map_some'] at hrun
      have hnd := runLoop_nodup fetch hfetch fuel _ (by simp) d0 hr
      have heq : finalizeDelegates d0 = d := Option.some.inj hrun
      rw [← heq]
      exact hnd

/-- Witness for the amended C8: a concrete run and a concrete merge in
which the colliding item is dropped. -/
theorem C8_amended_dedup_witness :
    mergeDelegates [mkDel "x"] [mkDel "x", mkDel "y"] =
      [mkDel "x"] ++ ([mkDel "x", mkDel "y"].filter validate_delegate_data).filter
        (fun x => lowerAddr x ∉ [mkDel "x"].map lowerAddr) ∧
    ((c8wDone.acc.map lowerAddr).Nodup) :=
  C8_amended_dedup c8wFetch 3 defaultCheckpoint c8wDone [mkDel "x"] [mkDel "x", mkDel "y"]
    (by intro cur batch lc h; cases h; decide) (by decide) (by decide)

set_option maxHeartbeats 1600000 in
/-- Counterexample to C4 as stated: on the cursor sequence of
`c4Fetch`, the uninterrupted run exhausts the consecutive-failure
bound inside the empty-page stretch and returns only item "a", while
interrupting after the second page boundary (checkpoint: items ["a"],
cursor "s2") and re-running resets the uncheckpointed failure counter,
gets past the stretch and also retrieves item "b" — the two final item
sets differ even modulo deduplication by lower-cased address. -/
theorem C4_counterexample :
    (get_all_delegates_optimized c4Fetch 18 defaultCheckpoint).map
        (fun d => (d.acc, d.exit)) = some ([mkDel "a"], .cfExhausted) ∧
    stepsN c4Fetch 2 ⟨[], none, 0, defaultCheckpoint⟩ =
      some ⟨[mkDel "a"], some "s2", 1, defaultCheckpoint⟩ ∧
    (get_all_delegates_optimized c4Fetch 18
        (save_checkpoint defaultCheckpoint (some [mkDel "a"]) none (some "s2") none none)).map
        (fun d => (d.acc, d.exit)) = some ([mkDel "a", mkDel "b"], .reachedEnd) ∧
    ¬ (mkDel "b" ∈ [mkDel "a"]) := by decide

/-- C4 (amended): for every cursor sequence on which the uninterrupted
run finishes without exhausting the consecutive-failure bound,
interrupting the delegate paginator at any reachable loop boundary —
persisting, as the periodic and failure-path saves do, the accumulated
items and the current cursor through `save_checkpoint` — and
re-running from that checkpoint produces exactly the same accumulated
item list and the same exit as the uninterrupted run. -/
theorem C4_amended_resume
    (fetch : Option String → Option (List Delegate × Option String))
    (fuel m : Nat) (s : DState) (d : DDone)
    (hU : get_all_delegates_optimized fetch fuel defaultCheckpoint = some d)
    (hexit : d.exit ≠ .cfExhausted)
    (hm : stepsN fetch m ⟨[], none, 0, defaultCheckpoint⟩ = some s) :
    ∃ d', get_all_delegates_optimized fetch fuel
        (save_checkpoint s.ck (some s.acc) none s.cur none none) = some d' ∧
      d'.acc = d.acc ∧ d'.exit = d.exit := by
  unfold get_all_delegates_optimized at hU
  rw [if_neg (by simp [defaultCheckpoint])] at hU
  dsimp only at hU
  rcases hr : runLoop fetch fuel ⟨[], none, 0, defaultCheckpoint⟩ with _ | d0
  · rw [hr] at hU
    simp at hU
  · rw [hr] at hU
    simp only [Option.map_some'] at hU
    have heq0 : finalizeDelegates d0 = d := Option.some.inj hU
    have hacc : d.acc = d0.acc := by rw [← heq0]; rfl
    have hex0 : d.exit = d0.exit := by rw [← heq0]; rfl
    have hex0' : d0.exit ≠ .cfExhausted := by rw [← hex0]; exact hexit
    obtain ⟨hmf, hrun⟩ := stepsN_runLoop fetch m _ s hm fuel d0 hr
    have hs_eta : s = ⟨s.acc, s.cur, s.cf, s.ck⟩ := rfl
    rw [hs_eta] at hrun
    unfold get_all_delegates_optimized
    by_cases hc :
        ¬ (save_checkpoint s.ck (some s.acc) none s.cur none none).delegates.isEmpty ∧
        optStrTruthy (save_checkpoint s.ck (some s.acc) none s.cur none none).last_delegate_cursor
    · rw [if_pos hc]
      dsimp only
      rcases hcur : s.cur with _ | c
      · exfalso
        have hinv := stepsN_cur_inv fetch m _ s hm (fun _ => rfl) hcur
        have hnone : (save_checkpoint s.ck (some s.acc) none s.cur none none).last_delegate_cursor = none := by
          simp [save_checkpoint, hcur, hinv]
        rw [hnone] at hc
        simp [optStrTruthy] at hc
      · have hdel : (save_checkpoint s.ck (some s.acc) none (some c) none none).delegates = s.acc := by
          simp [save_checkpoint]
        have hlast : (save_checkpoint s.ck (some s.acc) none (some c) none none).last_delegate_cursor = some c := by
          simp [save_checkpoint]
        rw [hdel, hlast]
        rw [hcur] at hrun
        obtain ⟨d1, hd1, hd1acc, hd1ex⟩ :=
          runLoop_cf_le fetch (fuel - m) s.acc (some c) s.cf 0 s.ck
            (save_checkpoint s.ck (some s.acc) none (some c) none none) d0
            (Nat.zero_le _) hrun hex0'
        have hfuel : fuel = (fuel - m) + m := by omega
        have hmono := runLoop_fuel_mono fetch (fuel - m) m _ d1 hd1
        rw [← hfuel] at hmono
        refine ⟨finalizeDelegates d1, ?_, ?_, ?_⟩
        · rw [hmono]
          rfl
        · show d1.acc = d.acc
          rw [hd1acc, hacc]
        · show d1.exit = d.exit
          rw [hd1ex, hex0]
    · rw [if_neg hc]
      dsimp only
      obtain ⟨d1, hd1, hd1acc, hd1ex⟩ :=
        runLoop_cf_le fetch fuel [] none 0 0 defaultCheckpoint
          (save_checkpoint s.ck (some s.acc) none s.cur none none) d0
          (Nat.le_refl 0) hr hex0'
      refine ⟨finalizeDelegates d1, ?_, ?_, ?_⟩
      · rw [hd1]
        rfl
      · show d1.acc = d.acc
        rw [hd1acc, hacc]
      · show d1.exit = d.exit
        rw [hd1ex, hex0]

/-- Witness for the amended C4: interrupting `c4wFetch` after its first
page and resuming reproduces the uninterrupted result. -/
theorem C4_amended_resume_witness :
    ∃ d', get_all_delegates_optimized c4wFetch 5
        (save_checkpoint c4wMid.ck (some c4wMid.acc) none c4wMid.cur none none) = some d' ∧
      d'.acc = c4wDone.acc ∧ d'.exit = c4wDone.exit :=
  C4_amended_resume c4wFetch 5 1 c4wMid c4wDone (by decide) (by decide) (by decide)

